import Mathlib

/-
  Verification development for the mcp-tdd TDD-orchestration core.

  The definitions below are a shallow embedding of the TypeScript source:
  - src/tddUtils.ts        (validatePhaseTransition, createCheckpointSnapshot,
                            restoreCheckpointSnapshot)
  - src/tddState.ts        (state store: updateCycle, getCheckpoint, ...)
  - src/tddHandlers.ts     (handleCompleteCycle, handleRollback)
  - src/services/TestRunner.ts (buildTestCommand, parseTestOutput)
  - src/testExecutionUtils.ts  (validateTestExpectation)
  - src/externalAPIService.ts  (CircuitBreaker, retry loop of makeRequest)

  JS timestamps (Date) are modelled as Nat; JS string-keyed Records are
  modelled as association lists with JS object-assignment semantics
  (update-in-place if the key exists, append otherwise); the filesystem is
  modelled as a map from path to optional content.  Markdown formatting of
  success responses is out of scope (spec section 1 excludes response
  formatting as thin glue); handler results carry the error flag and the
  error text, which the error-handling claims are about.
-/

namespace McpTdd

/-! ## Phase state machine (src/tddUtils.ts) -/

/-- TDDPhase from src/tddTypes.ts: READY, RED, GREEN, REFACTOR, COMPLETE. -/
inductive TDDPhase where
  | READY
  | RED
  | GREEN
  | REFACTOR
  | COMPLETE
deriving DecidableEq, Repr

/-- Return shape of validatePhaseTransition: valid flag plus optional error. -/
structure ValidationResult where
  valid : Bool
  error : Option String
deriving DecidableEq, Repr

/-- validatePhaseTransition from src/tddUtils.ts lines 229-290.
    strictMode is the TDD_STRICT_MODE environment toggle, passed explicitly. -/
def validatePhaseTransition (strictMode : Bool) (currentPhase targetPhase : TDDPhase)
    (testsFailing testsPassing : Nat) : ValidationResult :=
  if !strictMode then ⟨true, none⟩
  else
    match targetPhase with
    | .RED =>
        if currentPhase = .COMPLETE then
          ⟨false, some "Cannot go to RED from COMPLETE. Start a new cycle."⟩
        else ⟨true, none⟩
    | .GREEN =>
        if testsFailing = 0 then
          ⟨false, some "Cannot go to GREEN phase without failing tests. Write tests first (RED phase)."⟩
        else ⟨true, none⟩
    | .REFACTOR =>
        if testsFailing > 0 then
          ⟨false, some "Cannot refactor with failing tests. Fix tests first (GREEN phase)."⟩
        else if testsPassing = 0 then
          ⟨false, some "Cannot refactor without passing tests. Write and pass tests first."⟩
        else ⟨true, none⟩
    | .COMPLETE =>
        if testsFailing > 0 then
          ⟨false, some "Cannot complete cycle with failing tests. All tests must pass."⟩
        else if testsPassing = 0 then
          ⟨false, some "Cannot complete cycle without any passing tests."⟩
        else ⟨true, none⟩
    | _ => ⟨true, none⟩

/-! ## Data model (src/tddTypes.ts) -/

/-- TDDCycle record (src/tddTypes.ts).  Dates are Nat timestamps. -/
structure TDDCycle where
  id : String
  feature : String
  description : String
  testFramework : Option String
  language : Option String
  files : List String
  phase : TDDPhase
  createdAt : Nat
  updatedAt : Nat
  testsWritten : Nat
  testsPassing : Nat
  testsFailing : Nat
  implementations : List String
  refactorings : List String
deriving DecidableEq, Repr

/-- TDDTest record (src/tddTypes.ts). -/
structure TDDTest where
  id : String
  cycleId : String
  testFile : String
  testName : String
  testCode : String
  category : Option String
  expectedToFail : Bool
  status : String
  createdAt : Nat
deriving DecidableEq, Repr

/-- TestRunResult record (src/tddTypes.ts); coverage omitted (unused by
    the claims under verification). -/
structure TestRunResult where
  success : Bool
  testsRun : Nat
  testsPassed : Nat
  testsFailed : Nat
  testsSkipped : Nat
  duration : Nat
  output : String
deriving DecidableEq, Repr

/-- Implementation record (src/tddTypes.ts). -/
structure Implementation where
  id : String
  cycleId : String
  implementationFile : String
  code : String
  testsCovered : List String
  minimal : Bool
  createdAt : Nat
  verified : Bool
deriving DecidableEq, Repr

/-- Refactoring record (src/tddTypes.ts). -/
structure Refactoring where
  id : String
  cycleId : String
  file : String
  changes : String
  testsBefore : TestRunResult
  testsAfter : Option TestRunResult
  createdAt : Nat
  success : Bool
deriving DecidableEq, Repr

/-- Checkpoint record (src/tddTypes.ts): filesSnapshot is a Record
    (association list), testsSnapshot the TDDTest collection at capture. -/
structure Checkpoint where
  id : String
  cycleId : String
  checkpointName : String
  reason : Option String
  phase : TDDPhase
  filesSnapshot : List (String × String)
  testsSnapshot : List TDDTest
  createdAt : Nat
deriving DecidableEq, Repr

/-! ## State store (src/tddState.ts)

JS string-keyed Records modelled as association lists: assignment updates
in place when the key exists and appends otherwise, mirroring JS object
key semantics. -/

/-- Lookup in a string-keyed record. -/
def mapGet {α : Type} (m : List (String × α)) (k : String) : Option α :=
  (m.find? (fun kv => kv.1 = k)).map (fun kv => kv.2)

/-- JS object assignment into a string-keyed record. -/
def mapSet {α : Type} (m : List (String × α)) (k : String) (v : α) : List (String × α) :=
  if m.any (fun kv => kv.1 = k) then
    m.map (fun kv => if kv.1 = k then (k, v) else kv)
  else m ++ [(k, v)]

/-- TDDState (src/tddState.ts): the single in-memory state document. -/
structure TDDState where
  cycles : List (String × TDDCycle)
  tests : List (String × TDDTest)
  implementations : List (String × Implementation)
  refactorings : List (String × Refactoring)
  checkpoints : List (String × Checkpoint)
  activeCycle : Option TDDCycle
deriving DecidableEq, Repr

/-- updateCycle from src/tddState.ts lines 81-97: spread the partial update
    over the stored cycle, stamp updatedAt, refresh activeCycle if it is the
    same id.  The Partial update is modelled as a function on the record
    (the spread semantics of the update object). -/
def updateCycle (now : Nat) (s : TDDState) (cycleId : String)
    (updates : TDDCycle → TDDCycle) : TDDState × Option TDDCycle :=
  match mapGet s.cycles cycleId with
  | none => (s, none)
  | some cycle =>
      let updated : TDDCycle := { updates cycle with updatedAt := now }
      let s1 : TDDState := { s with cycles := mapSet s.cycles cycleId updated }
      let s2 : TDDState :=
        if s1.activeCycle.map (fun c => c.id) = some cycleId then
          { s1 with activeCycle := some updated }
        else s1
      (s2, some updated)

/-- getActiveCycle from src/tddState.ts lines 72-74. -/
def getActiveCycle (s : TDDState) : Option TDDCycle := s.activeCycle

/-- getCheckpoint from src/tddState.ts lines 136-138. -/
def getCheckpoint (s : TDDState) (checkpointId : String) : Option Checkpoint :=
  mapGet s.checkpoints checkpointId

/-- clearActiveCycle from src/tddState.ts lines 144-146. -/
def clearActiveCycle (s : TDDState) : TDDState := { s with activeCycle := none }

/-! ## Checkpoint engine (src/tddUtils.ts lines 324-349) -/

/-- Filesystem: path to optional content (none = the path does not exist
    or cannot be read). -/
def FS : Type := String → Option String

/-- Overwrite one path's content. -/
def fsWrite (fs : FS) (p c : String) : FS :=
  fun q => if q = p then some c else fs q

/-- The file-access abstraction for writes: ok says which paths are
    writable; writeFile (src/tddUtils.ts lines 199-207) either succeeds
    (creating parent directories) or throws. -/
def writeFileM (ok : String → Bool) (fs : FS) (p c : String) : Option FS :=
  if ok p then some (fsWrite fs p c) else none

/-- createCheckpointSnapshot from src/tddUtils.ts lines 324-338: for each
    listed file that exists and is readable, record its content; missing or
    unreadable files are silently skipped. -/
def createCheckpointSnapshot (fs : FS) (files : List String) : List (String × String) :=
  files.foldl
    (fun snap f =>
      match fs f with
      | some content => mapSet snap f content
      | none => snap)
    []

/-- restoreCheckpointSnapshot from src/tddUtils.ts lines 340-349: write each
    snapshot entry in order; the first failing write stops the loop and the
    error is rethrown (result flag false), leaving the earlier writes in
    place. -/
def restoreCheckpointSnapshot (ok : String → Bool) (snapshot : List (String × String))
    (fs : FS) : FS × Bool :=
  match snapshot with
  | [] => (fs, true)
  | (p, c) :: rest =>
      match writeFileM ok fs p c with
      | none => (fs, false)
      | some fs1 => restoreCheckpointSnapshot ok rest fs1

/-! ## Handlers (src/tddHandlers.ts) -/

/-- Boundary result of a handler: error flag plus the error text when
    isError (markdown success bodies are excluded formatting glue). -/
structure HandlerResult where
  isError : Bool
  errorText : Option String
deriving DecidableEq, Repr

/-- Error result constructor. -/
def HandlerResult.err (msg : String) : HandlerResult := ⟨true, some msg⟩

/-- Success result constructor. -/
def HandlerResult.ok : HandlerResult := ⟨false, none⟩

/-- handleCompleteCycle from src/tddHandlers.ts lines 681-745: require an
    active cycle, validate the COMPLETE transition, and on success set the
    phase to COMPLETE and clear the active cycle; on violation return the
    validation error unchanged-state. -/
def handleCompleteCycle (strict : Bool) (now : Nat) (s : TDDState) :
    TDDState × HandlerResult :=
  match getActiveCycle s with
  | none => (s, HandlerResult.err "❌ No active TDD cycle to complete.")
  | some cycle =>
      let validation :=
        validatePhaseTransition strict cycle.phase .COMPLETE cycle.testsFailing cycle.testsPassing
      if validation.valid then
        let s1 := (updateCycle now s cycle.id (fun c => { c with phase := .COMPLETE })).1
        (clearActiveCycle s1, HandlerResult.ok)
      else
        (s, HandlerResult.err ("❌ " ++ validation.error.getD ""))

/-- handleRollback from src/tddHandlers.ts lines 846-894: look up the
    checkpoint, restore its file snapshot, and only when the active cycle
    matches the checkpoint's cycleId reset that cycle's phase; a restore
    error is reported and no cycle is touched (the partial writes remain). -/
def handleRollback (now : Nat) (ok : String → Bool) (s : TDDState) (fs : FS)
    (checkpointId : String) : TDDState × FS × HandlerResult :=
  match getCheckpoint s checkpointId with
  | none => (s, fs, HandlerResult.err ("❌ Checkpoint not found: " ++ checkpointId))
  | some cp =>
      let restored := restoreCheckpointSnapshot ok cp.filesSnapshot fs
      if restored.2 then
        let s1 :=
          match getActiveCycle s with
          | some cycle =>
              if cycle.id = cp.cycleId then
                (updateCycle now s cycle.id (fun c => { c with phase := cp.phase })).1
              else s
          | none => s
        (s1, restored.1, HandlerResult.ok)
      else
        (s, restored.1, HandlerResult.err "❌ Rollback failed: write error")

/-! ## Requested phase transitions

The validating handlers share one step shape: validate the target against
the active cycle's counters; on valid set the phase to the target via
updateCycle, on invalid return the error and leave the cycle untouched
(handleRefactor lines 535-595, handleCompleteCycle lines 694-723). -/

/-- One requested transition against a cycle. -/
def attemptTransition (strict : Bool) (cycle : TDDCycle) (target : TDDPhase) :
    TDDCycle × Bool :=
  let v := validatePhaseTransition strict cycle.phase target cycle.testsFailing cycle.testsPassing
  if v.valid then ({ cycle with phase := target }, true) else (cycle, false)

/-- Run a sequence of requested transitions. -/
def runTransitions (strict : Bool) (cycle : TDDCycle) (targets : List TDDPhase) : TDDCycle :=
  targets.foldl (fun c t => (attemptTransition strict c t).1) cycle

/-- All transitions in the sequence succeed when attempted in order. -/
def transSeqOk (strict : Bool) (cycle : TDDCycle) : List TDDPhase → Bool
  | [] => true
  | t :: ts =>
      let step := attemptTransition strict cycle t
      step.2 && transSeqOk strict step.1 ts

/-! ## Test Result Normalizer (src/services/TestRunner.ts)

The count extraction mirrors the JS regex /(\d+) passed/ (and failed):
leftmost match position, greedy digit run with backtracking until the
literal suffix matches. -/

/-- parseInt on a digit string. -/
def parseDigits (ds : List Char) : Nat :=
  ds.foldl (fun n d => n * 10 + (d.toNat - 48)) 0

/-- Greedy-with-backtracking step of /(\d+)suffix/ at one position: run is
    the maximal digit run there; try capture lengths from longest down. -/
def greedyNum (run cs suffix : List Char) : Nat → Option (List Char)
  | 0 => none
  | k + 1 =>
      if suffix.isPrefixOf (cs.drop (k + 1)) then some (run.take (k + 1))
      else greedyNum run cs suffix k

/-- Leftmost match of /(\d+)suffix/: the captured number, if any. -/
def regexFirstNum (suffix : List Char) : List Char → Option Nat
  | [] => none
  | c :: cs =>
      let run := (c :: cs).takeWhile Char.isDigit
      match greedyNum run (c :: cs) suffix run.length with
      | some digits => some (parseDigits digits)
      | none => regexFirstNum suffix cs

/-- TestResult from src/types/index.ts as used by TestRunner (the failures
    list is out of scope for the parsing claims). -/
structure TestResult where
  success : Bool
  passed : Nat
  failed : Nat
  total : Nat
  output : String
deriving DecidableEq, Repr

/-- parseTestOutput from src/services/TestRunner.ts lines 78-111: only the
    vitest and jest branches extract counts; every other framework leaves
    the zeroed default result. -/
def parseTestOutput (output : String) (framework : String) : TestResult :=
  let base : TestResult := ⟨false, 0, 0, 0, output⟩
  if framework = "vitest" then
    let passed := (regexFirstNum " passed".toList output.toList).getD 0
    let failed := (regexFirstNum " failed".toList output.toList).getD 0
    { base with
      passed := passed
      failed := failed
      total := passed + failed
      success := failed = 0 && passed + failed > 0 }
  else if framework = "jest" then
    let passed := (regexFirstNum " passed".toList output.toList).getD 0
    let failed := (regexFirstNum " failed".toList output.toList).getD 0
    { base with
      passed := passed
      failed := failed
      total := passed + failed
      success := failed = 0 && passed + failed > 0 }
  else base

/-- buildTestCommand from src/services/TestRunner.ts lines 68-76: three
    fixed commands with an optional pattern, defaulting to the vitest
    command for unrecognized identifiers. -/
def buildTestCommand (framework : String) (pattern : Option String) : String :=
  let commands : List (String × String) :=
    [("vitest", match pattern with
                | some p => "npx vitest run " ++ p
                | none => "npx vitest run"),
     ("jest", match pattern with
              | some p => "npx jest " ++ p
              | none => "npx jest"),
     ("mocha", match pattern with
               | some p => "npx mocha " ++ p
               | none => "npx mocha")]
  match mapGet commands framework with
  | some c => c
  | none => (mapGet commands "vitest").getD ""

/-! ## Expectation validation (src/testExecutionUtils.ts lines 29-54) -/

/-- The pass or fail outcome literal. -/
inductive Outcome where
  | fail
  | pass
deriving DecidableEq, Repr

/-- Return shape of validateTestExpectation. -/
structure TestExpectationResult where
  expectationMet : Bool
  actualOutcome : Outcome
  phaseUpdate : TDDPhase
  statusIcon : String
deriving DecidableEq, Repr

/-- validateTestExpectation from src/testExecutionUtils.ts lines 29-54. -/
def validateTestExpectation (expectation : Outcome) (result : TestRunResult)
    (cycle : TDDCycle) : TestExpectationResult :=
  let actualOutcome := if result.testsFailed > 0 then Outcome.fail else Outcome.pass
  let expectationMet := expectation = actualOutcome
  let phaseUpdate :=
    if expectationMet then
      if expectation = Outcome.fail ∧ cycle.phase = TDDPhase.RED then TDDPhase.RED
      else if expectation = Outcome.pass ∧ result.testsFailed = 0 then TDDPhase.GREEN
      else cycle.phase
    else cycle.phase
  { expectationMet := expectationMet
    actualOutcome := actualOutcome
    phaseUpdate := phaseUpdate
    statusIcon := if expectationMet then "✅" else "⚠️" }

/-! ## Resilient call client (src/externalAPIService.ts) -/

/-- Circuit breaker state literals. -/
inductive CBState where
  | CLOSED
  | OPEN
  | HALF_OPEN
deriving DecidableEq, Repr

/-- CircuitBreakerConfig from src/externalAPIService.ts lines 11-15. -/
structure CircuitBreakerConfig where
  failureThreshold : Nat
  resetTimeoutMs : Nat
  monitoringPeriodMs : Nat
deriving DecidableEq, Repr

/-- The mutable fields of class CircuitBreaker (lines 17-60). -/
structure CircuitBreaker where
  failures : Nat
  lastFailureTime : Nat
  state : CBState
deriving DecidableEq, Repr

/-- Field initializers of class CircuitBreaker. -/
def CircuitBreaker.initial : CircuitBreaker := ⟨0, 0, .CLOSED⟩

/-- The breaker instance configuration (lines 70-74). -/
def serviceBreakerConfig : CircuitBreakerConfig := ⟨5, 30000, 60000⟩

/-- onSuccess (lines 43-46). -/
def CircuitBreaker.onSuccess (cb : CircuitBreaker) : CircuitBreaker :=
  { cb with failures := 0, state := .CLOSED }

/-- onFailure (lines 48-55). -/
def CircuitBreaker.onFailure (cfg : CircuitBreakerConfig) (now : Nat)
    (cb : CircuitBreaker) : CircuitBreaker :=
  let failures := cb.failures + 1
  { cb with
    failures := failures
    lastFailureTime := now
    state := if cfg.failureThreshold ≤ failures then .OPEN else cb.state }

/-- The guard at the top of execute (lines 25-31): none means the breaker
    rejects the call without running the operation; some gives the breaker
    state under which the operation runs (OPEN turns HALF_OPEN once more
    than resetTimeoutMs has elapsed since the last failure). -/
def CircuitBreaker.executeGate (cfg : CircuitBreakerConfig) (cb : CircuitBreaker)
    (now : Nat) : Option CircuitBreaker :=
  if cb.state = .OPEN then
    if now - cb.lastFailureTime > cfg.resetTimeoutMs then
      some { cb with state := .HALF_OPEN }
    else none
  else some cb

/-- Outcome of one execute call. -/
inductive ExecOutcome where
  | rejected
  | succeeded
  | failedOp
deriving DecidableEq, Repr

/-- execute (lines 24-41): gate, then run the operation (modelled by its
    boolean result) and fold its outcome into the breaker. -/
def CircuitBreaker.execute (cfg : CircuitBreakerConfig) (cb : CircuitBreaker)
    (now : Nat) (opSucceeds : Bool) : CircuitBreaker × ExecOutcome :=
  match cb.executeGate cfg now with
  | none => (cb, .rejected)
  | some cb1 =>
      if opSucceeds then (cb1.onSuccess, .succeeded)
      else (cb1.onFailure cfg now, .failedOp)

/-- Fold a sequence of calls (time, operation result) through the breaker. -/
def CircuitBreaker.runCalls (cfg : CircuitBreakerConfig) (cb : CircuitBreaker)
    (calls : List (Nat × Bool)) : CircuitBreaker :=
  calls.foldl (fun b call => (b.execute cfg call.1 call.2).1) cb

/-- RetryConfig from src/externalAPIService.ts lines 4-9. -/
structure RetryConfig where
  maxRetries : Nat
  baseDelay : Nat
  maxDelay : Nat
  backoffMultiplier : Nat
deriving DecidableEq, Repr

/-- The default retryConfig instance (lines 63-68). -/
def defaultRetryConfig : RetryConfig := ⟨3, 1000, 10000, 2⟩

/-- calculateDelay (lines 80-83). -/
def calculateDelay (rc : RetryConfig) (attempt : Nat) : Nat :=
  min (rc.baseDelay * rc.backoffMultiplier ^ attempt) rc.maxDelay

/-- The shape of a caught axios error: optional error.code and optional
    error.response.status. -/
structure ApiError where
  code : Option String
  status : Option Nat
deriving DecidableEq, Repr

/-- shouldRetry (lines 127-141): 4xx responses are never retried; network
    error codes and 5xx responses are. -/
def shouldRetry (e : ApiError) : Bool :=
  if (match e.status with
      | some st => decide (400 ≤ st ∧ st < 500)
      | none => false) then false
  else
    decide (e.code = some "ECONNREFUSED") ||
    decide (e.code = some "ETIMEDOUT") ||
    decide (e.code = some "ENOTFOUND") ||
    decide (e.code = some "ECONNRESET") ||
    (match e.status with
     | some st => decide (500 ≤ st)
     | none => false)

/-- Observable trace of the retry loop: how many axios attempts ran, the
    sleeps between them, and whether a response was returned. -/
structure RetryTrace where
  attemptsMade : Nat
  delays : List Nat
  succeeded : Bool
deriving DecidableEq, Repr

/-- The for-loop of makeRequest (lines 95-121): outcomes gives each
    attempt's result (none = the axios call resolves); the loop breaks on
    the last attempt or on a non-retryable error, otherwise sleeps
    calculateDelay(attempt) and goes round again.  fuel bounds the
    recursion; the loop itself always leaves through a return or a break
    when fuel starts at maxRetries + 1. -/
def retryRun (rc : RetryConfig) (outcomes : Nat → Option ApiError) :
    Nat → Nat → RetryTrace
  | _, 0 => ⟨0, [], false⟩
  | attempt, fuel + 1 =>
      match outcomes attempt with
      | none => ⟨attempt + 1, [], true⟩
      | some e =>
          if attempt = rc.maxRetries ∨ shouldRetry e = false then
            ⟨attempt + 1, [], false⟩
          else
            let d := calculateDelay rc attempt
            let t := retryRun rc outcomes (attempt + 1) fuel
            ⟨t.attemptsMade, d :: t.delays, t.succeeded⟩

/-- The whole retry loop of makeRequest, attempts 0 through maxRetries. -/
def makeRequestRetry (rc : RetryConfig) (outcomes : Nat → Option ApiError) : RetryTrace :=
  retryRun rc outcomes 0 (rc.maxRetries + 1)

/-- makeRequest (lines 85-125): the retry loop runs inside one
    circuit-breaker-guarded call; when the gate rejects, the loop never
    starts (zero attempts). -/
def makeRequest (cfg : CircuitBreakerConfig) (rc : RetryConfig)
    (cb : CircuitBreaker) (now : Nat) (outcomes : Nat → Option ApiError) :
    CircuitBreaker × RetryTrace :=
  match cb.executeGate cfg now with
  | none => (cb, ⟨0, [], false⟩)
  | some cb1 =>
      let trace := makeRequestRetry rc outcomes
      (if trace.succeeded then cb1.onSuccess else cb1.onFailure cfg now, trace)

/-- Key membership in a string-keyed record. -/
def hasKey {α : Type} (m : List (String × α)) (k : String) : Bool :=
  m.any (fun kv => kv.1 = k)

/-- The value written last for a key by a left-to-right write sequence. -/
def lookupLast : List (String × String) → String → Option String
  | [], _ => none
  | kv :: rest, p =>
      match lookupLast rest p with
      | some w => some w
      | none => if p = kv.1 then some kv.2 else none

/-! ## Helper lemmas -/

/-- A successful attempted transition sets the phase to the target. -/
theorem attemptTransition_true_phase (strict : Bool) (cycle : TDDCycle) (t : TDDPhase)
    (h : (attemptTransition strict cycle t).2 = true) :
    (attemptTransition strict cycle t).1.phase = t := by
  unfold attemptTransition at *
  by_cases hv :
      (validatePhaseTransition strict cycle.phase t cycle.testsFailing cycle.testsPassing).valid
  · simp [hv]
  · simp [hv] at h

/-- A failed attempted transition leaves the cycle unchanged. -/
theorem attemptTransition_false_eq (strict : Bool) (cycle : TDDCycle) (t : TDDPhase)
    (h : (attemptTransition strict cycle t).2 = false) :
    (attemptTransition strict cycle t).1 = cycle := by
  unfold attemptTransition at *
  by_cases hv :
      (validatePhaseTransition strict cycle.phase t cycle.testsFailing cycle.testsPassing).valid
  · simp [hv] at h
  · simp [hv]

/-- After a sequence of transitions in which every step validates, the phase
    is the last requested target. -/
theorem runTransitions_last_target (strict : Bool) :
    ∀ (targets : List TDDPhase) (cycle : TDDCycle) (h : targets ≠ []),
      transSeqOk strict cycle targets = true →
      (runTransitions strict cycle targets).phase = targets.getLast h := by
  intro targets
  induction targets with
  | nil => intro _ h; exact absurd rfl h
  | cons t ts ih =>
      intro cycle _ hok
      unfold transSeqOk at hok
      rw [Bool.and_eq_true] at hok
      match ts, ih with
      | [], _ =>
          simp only [runTransitions, List.foldl, List.getLast]
          exact attemptTransition_true_phase strict cycle t hok.1
      | t' :: ts', ih =>
          have hstep : runTransitions strict cycle (t :: t' :: ts') =
              runTransitions strict (attemptTransition strict cycle t).1 (t' :: ts') := rfl
          rw [hstep]
          rw [List.getLast_cons (by simp)]
          exact ih (attemptTransition strict cycle t).1 (by simp) hok.2

/-- Claim C1: with strict validation on, validatePhaseTransition accepts
    exactly the table preconditions (RED: current not COMPLETE; GREEN: a
    failing test exists; REFACTOR and COMPLETE: no failing test and a
    passing test exists); an invalid COMPLETE attempt makes the handler
    return an error whose text carries the validator's explanation while
    the state (hence the phase) is unchanged; after any sequence of valid
    transitions the phase equals the last successfully requested target,
    and a rejected attempt never moves the phase. -/
theorem phase_transition_table_and_handler :
    (∀ cur f p, (validatePhaseTransition true cur .RED f p).valid = true ↔ cur ≠ .COMPLETE) ∧
    (∀ cur f p, (validatePhaseTransition true cur .GREEN f p).valid = true ↔ 0 < f) ∧
    (∀ cur f p, (validatePhaseTransition true cur .REFACTOR f p).valid = true ↔ f = 0 ∧ 0 < p) ∧
    (∀ cur f p, (validatePhaseTransition true cur .COMPLETE f p).valid = true ↔ f = 0 ∧ 0 < p) ∧
    (∀ now s cycle, getActiveCycle s = some cycle →
      (validatePhaseTransition true cycle.phase .COMPLETE
          cycle.testsFailing cycle.testsPassing).valid = false →
      (handleCompleteCycle true now s).1 = s ∧
      (handleCompleteCycle true now s).2.isError = true ∧
      ∃ e, (validatePhaseTransition true cycle.phase .COMPLETE
              cycle.testsFailing cycle.testsPassing).error = some e ∧
           (handleCompleteCycle true now s).2.errorText = some ("❌ " ++ e)) ∧
    (∀ cycle t, (attemptTransition true cycle t).2 = false →
      (attemptTransition true cycle t).1 = cycle) ∧
    (∀ (cycle : TDDCycle) (targets : List TDDPhase) (h : targets ≠ []),
      transSeqOk true cycle targets = true →
      (runTransitions true cycle targets).phase = targets.getLast h) := by
  refine ⟨?_, ?_, ?_, ?_, ?_, ?_, ?_⟩
  · intro cur f p
    cases cur <;> simp [validatePhaseTransition]
  · intro cur f p
    by_cases hf : f = 0 <;> simp [validatePhaseTransition, hf] <;> omega
  · intro cur f p
    by_cases hf : 0 < f <;> by_cases hp : p = 0 <;>
      simp [validatePhaseTransition, hf, hp] <;> omega
  · intro cur f p
    by_cases hf : 0 < f <;> by_cases hp : p = 0 <;>
      simp [validatePhaseTransition, hf, hp] <;> omega
  · intro now s cycle hac hval
    have herr : ∃ e, (validatePhaseTransition true cycle.phase .COMPLETE
        cycle.testsFailing cycle.testsPassing).error = some e := by
      unfold validatePhaseTransition at hval ⊢
      by_cases hf : 0 < cycle.testsFailing <;> by_cases hp : cycle.testsPassing = 0 <;>
        simp_all
    obtain ⟨e, he⟩ := herr
    refine ⟨?_, ?_, e, he, ?_⟩ <;>
      simp [handleCompleteCycle, hac, hval, HandlerResult.err, he, Option.getD]
  · exact fun cycle t h => attemptTransition_false_eq true cycle t h
  · exact fun cycle targets h hok => runTransitions_last_target true targets cycle h hok

/-- Claim C1 witness: a concrete valid RED then GREEN run ends in GREEN, and
    a concrete invalid COMPLETE attempt (READY, one failing test) errors
    with the validator's explanation and leaves the state untouched. -/
theorem phase_transition_table_and_handler_witness :
    (runTransitions true
      ⟨"c1", "feat", "", none, none, [], .READY, 0, 0, 1, 0, 1, [], []⟩
      [TDDPhase.RED, TDDPhase.GREEN]).phase = TDDPhase.GREEN ∧
    (handleCompleteCycle true 7
      ⟨[("c1", ⟨"c1", "feat", "", none, none, [], .READY, 0, 0, 1, 0, 1, [], []⟩)], [], [], [], [],
        some ⟨"c1", "feat", "", none, none, [], .READY, 0, 0, 1, 0, 1, [], []⟩⟩).1 =
      ⟨[("c1", ⟨"c1", "feat", "", none, none, [], .READY, 0, 0, 1, 0, 1, [], []⟩)], [], [], [], [],
        some ⟨"c1", "feat", "", none, none, [], .READY, 0, 0, 1, 0, 1, [], []⟩⟩ ∧
    (handleCompleteCycle true 7
      ⟨[("c1", ⟨"c1", "feat", "", none, none, [], .READY, 0, 0, 1, 0, 1, [], []⟩)], [], [], [], [],
        some ⟨"c1", "feat", "", none, none, [], .READY, 0, 0, 1, 0, 1, [], []⟩⟩).2.isError = true := by
  refine ⟨?_, ?_, ?_⟩
  · exact phase_transition_table_and_handler.2.2.2.2.2.2
      ⟨"c1", "feat", "", none, none, [], .READY, 0, 0, 1, 0, 1, [], []⟩
      [TDDPhase.RED, TDDPhase.GREEN] (by simp) (by decide)
  · exact (phase_transition_table_and_handler.2.2.2.2.1 7
      ⟨[("c1", ⟨"c1", "feat", "", none, none, [], .READY, 0, 0, 1, 0, 1, [], []⟩)], [], [], [], [],
        some ⟨"c1", "feat", "", none, none, [], .READY, 0, 0, 1, 0, 1, [], []⟩⟩
      ⟨"c1", "feat", "", none, none, [], .READY, 0, 0, 1, 0, 1, [], []⟩ rfl (by decide)).1
  · exact (phase_transition_table_and_handler.2.2.2.2.1 7
      ⟨[("c1", ⟨"c1", "feat", "", none, none, [], .READY, 0, 0, 1, 0, 1, [], []⟩)], [], [], [], [],
        some ⟨"c1", "feat", "", none, none, [], .READY, 0, 0, 1, 0, 1, [], []⟩⟩
      ⟨"c1", "feat", "", none, none, [], .READY, 0, 0, 1, 0, 1, [], []⟩ rfl (by decide)).2.1

/-- Entries of a record after an assignment: the assigned pair or an old entry. -/
theorem mapSet_mem {α : Type} (m : List (String × α)) (k : String) (v : α)
    (e : String × α) (he : e ∈ mapSet m k v) : e = (k, v) ∨ e ∈ m := by
  unfold mapSet at he
  by_cases h : m.any (fun kv => kv.1 = k)
  · rw [if_pos h] at he
    obtain ⟨kv, hkv, heq⟩ := List.mem_map.mp he
    by_cases hk : kv.1 = k
    · rw [if_pos hk] at heq
      exact Or.inl heq.symm
    · rw [if_neg hk] at heq
      exact Or.inr (heq ▸ hkv)
  · rw [if_neg h] at he
    rcases List.mem_append.mp he with h1 | h1
    · exact Or.inr h1
    · exact Or.inl (List.mem_singleton.mp h1)

/-- An assignment makes its key present. -/
theorem mapSet_hasKey_self {α : Type} (m : List (String × α)) (k : String) (v : α) :
    hasKey (mapSet m k v) k = true := by
  unfold hasKey mapSet
  by_cases h : m.any (fun kv => kv.1 = k)
  · rw [if_pos h]
    obtain ⟨kv, hkv, hp⟩ := List.any_eq_true.mp h
    refine List.any_eq_true.mpr ⟨(k, v), List.mem_map.mpr ⟨kv, hkv, ?_⟩, by simp⟩
    rw [if_pos (of_decide_eq_true hp)]
  · rw [if_neg h]
    exact List.any_eq_true.mpr ⟨(k, v), by simp, by simp⟩

/-- Assignments never remove other keys. -/
theorem mapSet_hasKey_mono {α : Type} (m : List (String × α)) (k p : String) (v : α)
    (h : hasKey m p = true) : hasKey (mapSet m k v) p = true := by
  unfold hasKey mapSet
  obtain ⟨kv, hkv, hp⟩ := List.any_eq_true.mp h
  by_cases hm : m.any (fun kv => kv.1 = k)
  · rw [if_pos hm]
    by_cases hk : kv.1 = k
    · refine List.any_eq_true.mpr ⟨(k, v), List.mem_map.mpr ⟨kv, hkv, by simp [hk]⟩, ?_⟩
      have : kv.1 = p := of_decide_eq_true hp
      simp [← hk, this]
    · exact List.any_eq_true.mpr ⟨kv, List.mem_map.mpr ⟨kv, hkv, by simp [hk]⟩, hp⟩
  · rw [if_neg hm]
    exact List.any_eq_true.mpr ⟨kv, List.mem_append.mpr (Or.inl hkv), hp⟩

/-- A found element satisfies the search predicate. -/
theorem find?_pred {α : Type} (p : α → Bool) (l : List α) (a : α)
    (h : l.find? p = some a) : p a = true := by
  induction l with
  | nil => simp [List.find?] at h
  | cons x xs ih =>
      by_cases hp : p x = true
      · rw [List.find?_cons_of_pos _ hp] at h
        cases h
        exact hp
      · rw [List.find?_cons_of_neg _ (by simp [hp])] at h
        exact ih h

/-- A found record entry is a member with that key. -/
theorem mapGet_mem {α : Type} (m : List (String × α)) (k : String) {v : α}
    (h : mapGet m k = some v) : (k, v) ∈ m := by
  unfold mapGet at h
  match hf : m.find? (fun kv => kv.1 = k) with
  | none => rw [hf] at h; simp at h
  | some kv =>
      rw [hf] at h
      simp at h
      have hmem := List.mem_of_find?_eq_some hf
      have hpred0 : decide (kv.1 = k) = true := find?_pred _ m kv hf
      have hpred : kv.1 = k := of_decide_eq_true hpred0
      have : kv = (k, v) := by
        cases kv
        simp_all
      exact this ▸ hmem

/-- A present key is found. -/
theorem hasKey_mapGet {α : Type} (m : List (String × α)) (k : String)
    (h : hasKey m k = true) : ∃ v, mapGet m k = some v := by
  unfold hasKey at h
  unfold mapGet
  have hs : (m.find? (fun kv => kv.1 = k)).isSome := by
    rw [List.find?_isSome]
    obtain ⟨kv, hkv, hp⟩ := List.any_eq_true.mp h
    exact ⟨kv, hkv, hp⟩
  match hf : m.find? (fun kv => kv.1 = k) with
  | none => rw [hf] at hs; simp at hs
  | some kv => exact ⟨kv.2, by rw [hf]; rfl⟩

/-- Every snapshot entry records the snapshotted filesystem's content. -/
theorem createCheckpointSnapshot_mem (fs : FS) (files : List String) :
    ∀ e ∈ createCheckpointSnapshot fs files, fs e.1 = some e.2 := by
  have general : ∀ (fl : List String) (acc : List (String × String)),
      (∀ e ∈ acc, fs e.1 = some e.2) →
      ∀ e ∈ fl.foldl (fun snap f =>
          match fs f with
          | some content => mapSet snap f content
          | none => snap) acc, fs e.1 = some e.2 := by
    intro fl
    induction fl with
    | nil => intro acc hacc e he; exact hacc e he
    | cons f rest ih =>
        intro acc hacc e he
        simp only [List.foldl_cons] at he
        match hfs : fs f with
        | some content =>
            rw [hfs] at he
            refine ih (mapSet acc f content) ?_ e he
            intro e' he'
            rcases mapSet_mem acc f content e' he' with h | h
            · rw [h]; exact hfs
            · exact hacc e' h
        | none =>
            rw [hfs] at he
            exact ih acc hacc e he
  exact general files [] (by intro e he; simp at he)

/-- Every listed, existing path has a key in the snapshot. -/
theorem createCheckpointSnapshot_hasKey (fs : FS) (files : List String) (p : String)
    (c : String) (hfs : fs p = some c) (hp : p ∈ files) :
    hasKey (createCheckpointSnapshot fs files) p = true := by
  have general : ∀ (fl : List String) (acc : List (String × String)),
      (p ∈ fl ∨ hasKey acc p = true) →
      hasKey (fl.foldl (fun snap f =>
          match fs f with
          | some content => mapSet snap f content
          | none => snap) acc) p = true := by
    intro fl
    induction fl with
    | nil =>
        intro acc h
        rcases h with h | h
        · simp at h
        · exact h
    | cons f rest ih =>
        intro acc h
        simp only [List.foldl_cons]
        by_cases hf : f = p
        · subst hf
          rw [hfs]
          exact ih (mapSet acc f c) (Or.inr (mapSet_hasKey_self acc f c))
        · match hfsf : fs f with
          | some content =>
              refine ih (mapSet acc f content) ?_
              rcases h with h | h
              · rcases List.mem_cons.mp h with h' | h'
                · exact absurd h'.symm hf
                · exact Or.inl h'
              · exact Or.inr (mapSet_hasKey_mono acc f p content h)
          | none =>
              refine ih acc ?_
              rcases h with h | h
              · rcases List.mem_cons.mp h with h' | h'
                · exact absurd h'.symm hf
                · exact Or.inl h'
              · exact Or.inr h
  exact general files [] (Or.inl hp)

/-- The last-written value for a key is a member entry. -/
theorem lookupLast_mem (snap : List (String × String)) (p : String) {v : String}
    (h : lookupLast snap p = some v) : (p, v) ∈ snap := by
  induction snap with
  | nil => simp [lookupLast] at h
  | cons kv rest ih =>
      unfold lookupLast at h
      match hl : lookupLast rest p with
      | some w =>
          rw [hl] at h
          simp at h
          subst h
          exact List.mem_cons.mpr (Or.inr (ih hl))
      | none =>
          rw [hl] at h
          by_cases hp : p = kv.1
          · rw [if_pos hp] at h
            simp at h
            refine List.mem_cons.mpr (Or.inl ?_)
            cases kv
            simp_all
          · rw [if_neg hp] at h
            simp at h


/-- A key with some entry has a last-written value. -/
theorem lookupLast_of_hasKey (snap : List (String × String)) (p : String)
    (h : hasKey snap p = true) : ∃ v, lookupLast snap p = some v := by
  induction snap with
  | nil => simp [hasKey] at h
  | cons kv rest ih =>
      unfold lookupLast
      match hl : lookupLast rest p with
      | some w => exact ⟨w, rfl⟩
      | none =>
          unfold hasKey at h
          rcases List.any_eq_true.mp h with ⟨e, he, hp⟩
          rcases List.mem_cons.mp he with he | he
          · subst he
            have : e.1 = p := of_decide_eq_true hp
            exact ⟨e.2, by rw [if_pos this.symm]⟩
          · obtain ⟨w, hw⟩ := ih (List.any_eq_true.mpr ⟨e, he, hp⟩)
            rw [hl] at hw
            cases hw

/-- Definitional step of restore on a nonempty snapshot. -/
theorem restore_cons (ok : String → Bool) (p c : String)
    (rest : List (String × String)) (fs : FS) :
    restoreCheckpointSnapshot ok ((p, c) :: rest) fs =
      match writeFileM ok fs p c with
      | none => (fs, false)
      | some fs1 => restoreCheckpointSnapshot ok rest fs1 := rfl

/-- Definitional step of lookupLast on a nonempty list. -/
theorem lookupLast_cons (kv : String × String) (rest : List (String × String)) (q : String) :
    lookupLast (kv :: rest) q =
      match lookupLast rest q with
      | some w => some w
      | none => if q = kv.1 then some kv.2 else none := rfl

/-- When every write succeeds, restore reports success and every path ends
    at its last snapshot value (or keeps its prior content). -/
theorem restore_ok_spec (ok : String → Bool) :
    ∀ (snap : List (String × String)) (fs : FS),
      (∀ e ∈ snap, ok e.1 = true) →
      (restoreCheckpointSnapshot ok snap fs).2 = true ∧
      ∀ q, (restoreCheckpointSnapshot ok snap fs).1 q =
        match lookupLast snap q with
        | some v => some v
        | none => fs q := by
  intro snap
  induction snap with
  | nil =>
      intro fs _
      exact ⟨rfl, fun q => by simp [restoreCheckpointSnapshot, lookupLast]⟩
  | cons kv rest ih =>
      obtain ⟨p, c⟩ := kv
      intro fs hok
      have hw : ok p = true := hok (p, c) (List.mem_cons_self (p, c) rest)
      have hrest : ∀ e ∈ rest, ok e.1 = true :=
        fun e he => hok e (List.mem_cons.mpr (Or.inr he))
      have hwm : writeFileM ok fs p c = some (fsWrite fs p c) := by
        unfold writeFileM
        rw [if_pos hw]
      have step : restoreCheckpointSnapshot ok ((p, c) :: rest) fs =
          restoreCheckpointSnapshot ok rest (fsWrite fs p c) := by
        rw [restore_cons, hwm]
      obtain ⟨hflag, hget⟩ := ih (fsWrite fs p c) hrest
      refine ⟨by rw [step]; exact hflag, fun q => ?_⟩
      rw [step, hget q, lookupLast_cons]
      match hl : lookupLast rest q with
      | some w => rfl
      | none =>
          by_cases hq : q = p <;> simp [fsWrite, hq]

/-- A restore that reports success succeeded on every write. -/
theorem restore_true_ok (ok : String → Bool) :
    ∀ (snap : List (String × String)) (fs : FS),
      (restoreCheckpointSnapshot ok snap fs).2 = true →
      ∀ e ∈ snap, ok e.1 = true := by
  intro snap
  induction snap with
  | nil => intro fs _ e he; simp at he
  | cons kv rest ih =>
      obtain ⟨p, c⟩ := kv
      intro fs h e he
      have hkv : ok p = true := by
        by_contra hbad
        have hfail : writeFileM ok fs p c = none := by
          unfold writeFileM
          rw [if_neg (by simpa using hbad)]
        rw [restore_cons, hfail] at h
        cases h
      rcases List.mem_cons.mp he with he | he
      · subst he
        exact hkv
      · have hwm : writeFileM ok fs p c = some (fsWrite fs p c) := by
          unfold writeFileM
          rw [if_pos hkv]
        rw [restore_cons, hwm] at h
        exact ih (fsWrite fs p c) h e he

/-- Claim C2: restoring a snapshot rewrites every path that existed at
    snapshot time with its byte-identical snapshotted content, on any
    intermediate filesystem state, provided the writes go through; a path
    that did not exist at snapshot time is absent from the snapshot mapping
    (it is skipped, not an error). -/
theorem checkpoint_snapshot_roundtrip (fs : FS) (files : List String)
    (ok : String → Bool) (fs2 : FS) (p : String)
    (hw : ∀ e ∈ createCheckpointSnapshot fs files, ok e.1 = true) :
    (∀ c, fs p = some c → p ∈ files →
      (restoreCheckpointSnapshot ok (createCheckpointSnapshot fs files) fs2).2 = true ∧
      (restoreCheckpointSnapshot ok (createCheckpointSnapshot fs files) fs2).1 p = some c) ∧
    (fs p = none → mapGet (createCheckpointSnapshot fs files) p = none) := by
  obtain ⟨hflag, hget⟩ := restore_ok_spec ok (createCheckpointSnapshot fs files) fs2 hw
  constructor
  · intro c hc hp
    refine ⟨hflag, ?_⟩
    have hkey : hasKey (createCheckpointSnapshot fs files) p = true :=
      createCheckpointSnapshot_hasKey fs files p c hc hp
    obtain ⟨v, hv⟩ := lookupLast_of_hasKey (createCheckpointSnapshot fs files) p hkey
    have hmem : (p, v) ∈ createCheckpointSnapshot fs files := lookupLast_mem _ p hv
    have : fs p = some v := createCheckpointSnapshot_mem fs files (p, v) hmem
    rw [hget p, hv]
    rw [hc] at this
    exact this.symm
  · intro hnone
    match hm : mapGet (createCheckpointSnapshot fs files) p with
    | none => rfl
    | some v =>
        have hmem := mapGet_mem _ p hm
        have := createCheckpointSnapshot_mem fs files (p, v) hmem
        rw [hnone] at this
        cases this

/-- Claim C2 witness: snapshotting a filesystem holding only a.ts and
    restoring onto an empty filesystem brings back a.ts byte-identically,
    while the missing b.ts has no snapshot entry. -/
theorem checkpoint_snapshot_roundtrip_witness :
    (restoreCheckpointSnapshot (fun _ => true)
      (createCheckpointSnapshot
        (fun q => if q = "a.ts" then some "content-A" else none) ["a.ts", "b.ts"])
      (fun _ => none)).1 "a.ts" = some "content-A" ∧
    mapGet (createCheckpointSnapshot
      (fun q => if q = "a.ts" then some "content-A" else none) ["a.ts", "b.ts"]) "b.ts" =
      none := by
  constructor
  · exact ((checkpoint_snapshot_roundtrip
      (fun q => if q = "a.ts" then some "content-A" else none) ["a.ts", "b.ts"]
      (fun _ => true) (fun _ => none) "a.ts" (fun e _ => rfl)).1
      "content-A" (by simp) (by simp)).2
  · exact (checkpoint_snapshot_roundtrip
      (fun q => if q = "a.ts" then some "content-A" else none) ["a.ts", "b.ts"]
      (fun _ => true) (fun _ => none) "b.ts" (fun e _ => rfl)).2 (by simp)

/-- Claim C4: restore is not transactional.  If every write before some
    entry succeeds and that entry's write fails, the earlier paths stay
    restored (the filesystem is exactly the restore of the prefix), no
    later entry is written, and the error is propagated (flag false) with
    no undo of the earlier writes. -/
theorem restore_not_transactional (ok : String → Bool) :
    ∀ (pre : List (String × String)) (p c : String) (post : List (String × String)) (fs : FS),
      (∀ e ∈ pre, ok e.1 = true) → ok p = false →
      restoreCheckpointSnapshot ok (pre ++ (p, c) :: post) fs =
        ((restoreCheckpointSnapshot ok pre fs).1, false) ∧
      (restoreCheckpointSnapshot ok pre fs).2 = true := by
  intro pre
  induction pre with
  | nil =>
      intro p c post fs _ hbad
      have hfail : writeFileM ok fs p c = none := by
        unfold writeFileM
        rw [if_neg (by simp [hbad])]
      constructor
      · rw [List.nil_append, restore_cons, hfail]
        rfl
      · rfl
  | cons kv rest ih =>
      obtain ⟨q, d⟩ := kv
      intro p c post fs hok hbad
      have hq : ok q = true := hok (q, d) (List.mem_cons_self (q, d) rest)
      have hrest : ∀ e ∈ rest, ok e.1 = true :=
        fun e he => hok e (List.mem_cons.mpr (Or.inr he))
      have hwm : writeFileM ok fs q d = some (fsWrite fs q d) := by
        unfold writeFileM
        rw [if_pos hq]
      have h1 := ih p c post (fsWrite fs q d) hrest hbad
      constructor
      · rw [List.cons_append, restore_cons, hwm, restore_cons, hwm]
        exact h1.1
      · rw [restore_cons, hwm]
        exact h1.2

/-- Claim C4 witness: with a.ts writable, bad.ts unwritable and z.ts after
    it, restore keeps the restored a.ts, never writes z.ts, and reports the
    error. -/
theorem restore_not_transactional_witness :
    (restoreCheckpointSnapshot (fun q => !(q = "bad.ts"))
      [("a.ts", "1"), ("bad.ts", "X"), ("z.ts", "9")] (fun _ => none)).2 = false ∧
    (restoreCheckpointSnapshot (fun q => !(q = "bad.ts"))
      [("a.ts", "1"), ("bad.ts", "X"), ("z.ts", "9")] (fun _ => none)).1 "a.ts" = some "1" ∧
    (restoreCheckpointSnapshot (fun q => !(q = "bad.ts"))
      [("a.ts", "1"), ("bad.ts", "X"), ("z.ts", "9")] (fun _ => none)).1 "z.ts" = none := by
  have h := restore_not_transactional (fun q => !(q = "bad.ts"))
    [("a.ts", "1")] "bad.ts" "X" [("z.ts", "9")] (fun _ => none)
    (by decide) (by decide)
  have hlist : [("a.ts", "1"), ("bad.ts", "X"), ("z.ts", "9")] =
      [("a.ts", "1")] ++ ("bad.ts", "X") :: [("z.ts", "9")] := rfl
  rw [hlist, h.1]
  refine ⟨rfl, ?_, ?_⟩ <;> decide

/-- Looking up the assigned key after a record assignment finds the value:
    update-in-place case. -/
theorem mapGet_map_update {α : Type} (m : List (String × α)) (k : String) (v : α)
    (h : m.any (fun kv => kv.1 = k) = true) :
    mapGet (m.map (fun kv => if kv.1 = k then (k, v) else kv)) k = some v := by
  induction m with
  | nil => simp at h
  | cons kv rest ih =>
      rw [List.map_cons]
      by_cases hk : kv.1 = k
      · rw [if_pos hk]
        unfold mapGet
        rw [List.find?_cons_of_pos _ (by simp)]
        rfl
      · rw [if_neg hk]
        unfold mapGet
        rw [List.find?_cons_of_neg _ (by simp [hk])]
        have hrest : rest.any (fun kv => kv.1 = k) = true := by
          rcases List.any_eq_true.mp h with ⟨e, he, hp⟩
          rcases List.mem_cons.mp he with he | he
          · subst he
            exact absurd (of_decide_eq_true hp) hk
          · exact List.any_eq_true.mpr ⟨e, he, hp⟩
        exact ih hrest

/-- Looking up the assigned key after a record assignment finds the value:
    append case. -/
theorem mapGet_append_new {α : Type} (m : List (String × α)) (k : String) (v : α)
    (h : m.any (fun kv => kv.1 = k) = false) :
    mapGet (m ++ [(k, v)]) k = some v := by
  induction m with
  | nil =>
      unfold mapGet
      rw [List.nil_append, List.find?_cons_of_pos _ (by simp)]
      rfl
  | cons kv rest ih =>
      rw [List.any_cons] at h
      rcases Bool.or_eq_false_iff.mp h with ⟨h1, h2⟩
      rw [List.cons_append]
      unfold mapGet
      rw [List.find?_cons_of_neg _ (by simp_all)]
      exact ih h2

/-- Looking up the assigned key after a record assignment finds the value. -/
theorem mapGet_mapSet_self {α : Type} (m : List (String × α)) (k : String) (v : α) :
    mapGet (mapSet m k v) k = some v := by
  unfold mapSet
  by_cases h : m.any (fun kv => kv.1 = k)
  · rw [if_pos h]
    exact mapGet_map_update m k v h
  · rw [if_neg h]
    exact mapGet_append_new m k v (Bool.of_not_eq_true h)

/-- Claim C3: rolling back to a checkpoint of the active cycle restores the
    snapshotted files and resets that cycle's phase to the checkpoint's
    captured phase, stamping updatedAt; the TestCase, Implementation and
    Refactoring collections (and the checkpoint store) are untouched, and
    no cycle field other than phase and updatedAt changes. -/
theorem rollback_restores_phase_only (now : Nat) (ok : String → Bool) (s : TDDState)
    (fs : FS) (cpId : String) (cp : Checkpoint) (cycle : TDDCycle)
    (hcp : getCheckpoint s cpId = some cp)
    (hac : getActiveCycle s = some cycle)
    (hid : cycle.id = cp.cycleId)
    (hcy : mapGet s.cycles cycle.id = some cycle)
    (hre : (restoreCheckpointSnapshot ok cp.filesSnapshot fs).2 = true) :
    (handleRollback now ok s fs cpId).2.2.isError = false ∧
    (handleRollback now ok s fs cpId).1.tests = s.tests ∧
    (handleRollback now ok s fs cpId).1.implementations = s.implementations ∧
    (handleRollback now ok s fs cpId).1.refactorings = s.refactorings ∧
    (handleRollback now ok s fs cpId).1.checkpoints = s.checkpoints ∧
    (handleRollback now ok s fs cpId).1.activeCycle =
      some { cycle with phase := cp.phase, updatedAt := now } ∧
    mapGet (handleRollback now ok s fs cpId).1.cycles cycle.id =
      some { cycle with phase := cp.phase, updatedAt := now } ∧
    (handleRollback now ok s fs cpId).2.1 =
      (restoreCheckpointSnapshot ok cp.filesSnapshot fs).1 := by
  have hmain : handleRollback now ok s fs cpId =
      ((updateCycle now s cycle.id (fun c => { c with phase := cp.phase })).1,
       (restoreCheckpointSnapshot ok cp.filesSnapshot fs).1, HandlerResult.ok) := by
    unfold handleRollback
    rw [hcp]
    simp only [hre, if_true]
    rw [show getActiveCycle s = some cycle from hac]
    dsimp only
    rw [if_pos hid]
  have hupd : (updateCycle now s cycle.id (fun c => { c with phase := cp.phase })).1 =
      { s with
          cycles := mapSet s.cycles cycle.id { cycle with phase := cp.phase, updatedAt := now },
          activeCycle := some { cycle with phase := cp.phase, updatedAt := now } } := by
    unfold updateCycle
    rw [hcy]
    dsimp only
    rw [if_pos (by rw [show s.activeCycle = some cycle from hac]; rfl)]
  rw [hmain, hupd]
  refine ⟨rfl, rfl, rfl, rfl, rfl, rfl, ?_, rfl⟩
  exact mapGet_mapSet_self s.cycles cycle.id { cycle with phase := cp.phase, updatedAt := now }

/-- Claim C3 witness: rolling a GREEN cycle back to its RED checkpoint
    leaves tests and implementations records alone and only the phase and
    updatedAt of the cycle change. -/
theorem rollback_restores_phase_only_witness :
    (handleRollback 9 (fun _ => true)
      ⟨[("c1", ⟨"c1", "feat", "", none, none, ["a.ts"], .GREEN, 0, 3, 1, 1, 0, ["i.ts"], []⟩)],
        [("t1", ⟨"t1", "c1", "a.test.ts", "n", "code", none, true, "passed", 1⟩)], [], [],
        [("k1", ⟨"k1", "c1", "before", none, .RED, [("a.ts", "old")], [], 2⟩)],
        some ⟨"c1", "feat", "", none, none, ["a.ts"], .GREEN, 0, 3, 1, 1, 0, ["i.ts"], []⟩⟩
      (fun _ => none) "k1").1.tests =
      [("t1", ⟨"t1", "c1", "a.test.ts", "n", "code", none, true, "passed", 1⟩)] ∧
    (handleRollback 9 (fun _ => true)
      ⟨[("c1", ⟨"c1", "feat", "", none, none, ["a.ts"], .GREEN, 0, 3, 1, 1, 0, ["i.ts"], []⟩)],
        [("t1", ⟨"t1", "c1", "a.test.ts", "n", "code", none, true, "passed", 1⟩)], [], [],
        [("k1", ⟨"k1", "c1", "before", none, .RED, [("a.ts", "old")], [], 2⟩)],
        some ⟨"c1", "feat", "", none, none, ["a.ts"], .GREEN, 0, 3, 1, 1, 0, ["i.ts"], []⟩⟩
      (fun _ => none) "k1").1.activeCycle =
      some ⟨"c1", "feat", "", none, none, ["a.ts"], .RED, 0, 9, 1, 1, 0, ["i.ts"], []⟩ := by
  have h := rollback_restores_phase_only 9 (fun _ => true)
    ⟨[("c1", ⟨"c1", "feat", "", none, none, ["a.ts"], .GREEN, 0, 3, 1, 1, 0, ["i.ts"], []⟩)],
      [("t1", ⟨"t1", "c1", "a.test.ts", "n", "code", none, true, "passed", 1⟩)], [], [],
      [("k1", ⟨"k1", "c1", "before", none, .RED, [("a.ts", "old")], [], 2⟩)],
      some ⟨"c1", "feat", "", none, none, ["a.ts"], .GREEN, 0, 3, 1, 1, 0, ["i.ts"], []⟩⟩
    (fun _ => none) "k1"
    ⟨"k1", "c1", "before", none, .RED, [("a.ts", "old")], [], 2⟩
    ⟨"c1", "feat", "", none, none, ["a.ts"], .GREEN, 0, 3, 1, 1, 0, ["i.ts"], []⟩
    (by decide) rfl rfl (by decide) (by decide)
  exact ⟨h.2.1, h.2.2.2.2.2.1⟩

/-- Claim C10: when the checkpoint exists and its restore succeeds but
    there is no active cycle or its id differs from the checkpoint's
    cycleId, handleRollback still rewrites the snapshotted files and
    reports success, and the whole state store (in particular every cycle
    record) is unmodified. -/
theorem rollback_without_matching_cycle (now : Nat) (ok : String → Bool) (s : TDDState)
    (fs : FS) (cpId : String) (cp : Checkpoint)
    (hcp : getCheckpoint s cpId = some cp)
    (hre : (restoreCheckpointSnapshot ok cp.filesSnapshot fs).2 = true)
    (hmis : ∀ cycle, getActiveCycle s = some cycle → cycle.id ≠ cp.cycleId) :
    handleRollback now ok s fs cpId =
      (s, (restoreCheckpointSnapshot ok cp.filesSnapshot fs).1, HandlerResult.ok) ∧
    ∀ p v, lookupLast cp.filesSnapshot p = some v →
      (handleRollback now ok s fs cpId).2.1 p = some v := by
  have hmain : handleRollback now ok s fs cpId =
      (s, (restoreCheckpointSnapshot ok cp.filesSnapshot fs).1, HandlerResult.ok) := by
    unfold handleRollback
    rw [hcp]
    simp only [hre, if_true]
    match hac : getActiveCycle s with
    | none => rfl
    | some cycle =>
        dsimp only
        rw [if_neg (hmis cycle hac)]
  refine ⟨hmain, fun p v hv => ?_⟩
  have hok := restore_true_ok ok cp.filesSnapshot fs hre
  obtain ⟨_, hget⟩ := restore_ok_spec ok cp.filesSnapshot fs hok
  rw [hmain]
  simp only []
  rw [hget p, hv]

/-- Claim C10 witness: rolling back a checkpoint of cycle c0 while cycle c1
    is active restores the file and leaves the state untouched. -/
theorem rollback_without_matching_cycle_witness :
    handleRollback 9 (fun _ => true)
      ⟨[("c1", ⟨"c1", "feat", "", none, none, [], .GREEN, 0, 3, 1, 1, 0, [], []⟩)], [], [], [],
        [("k0", ⟨"k0", "c0", "old", none, .RED, [("a.ts", "old")], [], 2⟩)],
        some ⟨"c1", "feat", "", none, none, [], .GREEN, 0, 3, 1, 1, 0, [], []⟩⟩
      (fun _ => none) "k0" =
      (⟨[("c1", ⟨"c1", "feat", "", none, none, [], .GREEN, 0, 3, 1, 1, 0, [], []⟩)], [], [], [],
        [("k0", ⟨"k0", "c0", "old", none, .RED, [("a.ts", "old")], [], 2⟩)],
        some ⟨"c1", "feat", "", none, none, [], .GREEN, 0, 3, 1, 1, 0, [], []⟩⟩,
       (restoreCheckpointSnapshot (fun _ => true) [("a.ts", "old")] (fun _ => none)).1,
       HandlerResult.ok) := by
  exact (rollback_without_matching_cycle 9 (fun _ => true)
    ⟨[("c1", ⟨"c1", "feat", "", none, none, [], .GREEN, 0, 3, 1, 1, 0, [], []⟩)], [], [], [],
      [("k0", ⟨"k0", "c0", "old", none, .RED, [("a.ts", "old")], [], 2⟩)],
      some ⟨"c1", "feat", "", none, none, [], .GREEN, 0, 3, 1, 1, 0, [], []⟩⟩
    (fun _ => none) "k0"
    ⟨"k0", "c0", "old", none, .RED, [("a.ts", "old")], [], 2⟩
    (by decide) (by decide)
    (fun cycle hac => by
      cases hac
      decide)).1

/-- Claim C5 counterexample: the mocha identifier, although a supported
    framework of the command builder, is not parsed at all (counts stay 0
    instead of 12/3/15), and for vitest an output merely containing the
    substring "12 passed" can parse as 112. -/
theorem parseTestOutput_claim_counterexample :
    (parseTestOutput "Tests 12 passed, 3 failed" "mocha").passed = 0 ∧
    (parseTestOutput "Tests 12 passed, 3 failed" "mocha").failed = 0 ∧
    (parseTestOutput "Tests 12 passed, 3 failed" "mocha").total = 0 ∧
    (parseTestOutput "Tests 12 passed, 3 failed" "mocha").success = false ∧
    (parseTestOutput "112 passed and 3 failed" "vitest").passed = 112 := by
  refine ⟨rfl, rfl, rfl, rfl, rfl⟩

/-- Claim C5 (amended): only the vitest and jest identifiers are parsed:
    for them the counts come from the first regex matches of digits before
    " passed" and " failed", total = passed + failed, and success holds
    exactly when failed = 0 and total > 0; the fixture whose first matches
    are "12 passed" and "3 failed" yields 12/3/15 with success false; any
    other identifier (including mocha) keeps zero counts and success false. -/
theorem parseTestOutput_amended :
    (∀ out fw, fw = "vitest" ∨ fw = "jest" →
      (parseTestOutput out fw).total =
        (parseTestOutput out fw).passed + (parseTestOutput out fw).failed ∧
      ((parseTestOutput out fw).success = true ↔
        (parseTestOutput out fw).failed = 0 ∧ 0 < (parseTestOutput out fw).total)) ∧
    parseTestOutput "Tests 12 passed, 3 failed" "vitest" =
      ⟨false, 12, 3, 15, "Tests 12 passed, 3 failed"⟩ ∧
    parseTestOutput "Tests 12 passed, 3 failed" "jest" =
      ⟨false, 12, 3, 15, "Tests 12 passed, 3 failed"⟩ ∧
    (∀ out fw, fw ≠ "vitest" → fw ≠ "jest" →
      parseTestOutput out fw = ⟨false, 0, 0, 0, out⟩) := by
  refine ⟨?_, rfl, rfl, ?_⟩
  · intro out fw h
    rcases h with h | h <;> subst h
    · refine ⟨rfl, ?_⟩
      unfold parseTestOutput
      rw [if_pos rfl]
      simp [Bool.and_eq_true, decide_eq_true_iff]
    · refine ⟨rfl, ?_⟩
      unfold parseTestOutput
      rw [if_neg (by decide), if_pos rfl]
      simp [Bool.and_eq_true, decide_eq_true_iff]
  · intro out fw h1 h2
    unfold parseTestOutput
    rw [if_neg h1, if_neg h2]

/-- Claim C5 witness: applying the amended parsing law to the mocha
    identifier on the fixture output gives the zeroed result. -/
theorem parseTestOutput_amended_witness :
    parseTestOutput "Tests 12 passed, 3 failed" "mocha" =
      ⟨false, 0, 0, 0, "Tests 12 passed, 3 failed"⟩ :=
  parseTestOutput_amended.2.2.2 "Tests 12 passed, 3 failed" "mocha"
    (by decide) (by decide)

/-- Claim C6: expectation validation derives the actual outcome purely from
    the result (fail exactly when testsFailed > 0), meets the expectation
    exactly when it equals that outcome, is independent of the cycle
    argument in those two fields, and in particular expecting fail on a
    result with zero failures is not met and reports pass. -/
theorem expectation_validation_pure :
    (∀ e r c, (validateTestExpectation e r c).actualOutcome =
        (if 0 < r.testsFailed then Outcome.fail else Outcome.pass)) ∧
    (∀ e r c, (validateTestExpectation e r c).expectationMet = true ↔
        e = (validateTestExpectation e r c).actualOutcome) ∧
    (∀ e r c c', (validateTestExpectation e r c).expectationMet =
        (validateTestExpectation e r c').expectationMet ∧
      (validateTestExpectation e r c).actualOutcome =
        (validateTestExpectation e r c').actualOutcome) ∧
    (∀ r c, r.testsFailed = 0 →
      (validateTestExpectation Outcome.fail r c).expectationMet = false ∧
      (validateTestExpectation Outcome.fail r c).actualOutcome = Outcome.pass) := by
  refine ⟨fun e r c => rfl, ?_, fun e r c c' => ⟨rfl, rfl⟩, ?_⟩
  · intro e r c
    simp [validateTestExpectation]
  · intro r c h
    simp [validateTestExpectation, h]

/-- Claim C6 witness: expecting failure while 0 of 3 tests failed reports
    unmet expectation with an actual pass outcome. -/
theorem expectation_validation_pure_witness :
    (validateTestExpectation Outcome.fail ⟨true, 3, 3, 0, 0, 10, "ok"⟩
      ⟨"c1", "f", "", none, none, [], .RED, 0, 0, 3, 3, 0, [], []⟩).expectationMet = false ∧
    (validateTestExpectation Outcome.fail ⟨true, 3, 3, 0, 0, 10, "ok"⟩
      ⟨"c1", "f", "", none, none, [], .RED, 0, 0, 3, 3, 0, [], []⟩).actualOutcome =
      Outcome.pass :=
  expectation_validation_pure.2.2.2 ⟨true, 3, 3, 0, 0, 10, "ok"⟩
    ⟨"c1", "f", "", none, none, [], .RED, 0, 0, 3, 3, 0, [], []⟩ rfl

/-- Claim C9: the three supported identifiers build three distinct fixed
    commands (with or without a pattern argument), and every other
    identifier falls back to the vitest command instead of failing. -/
theorem buildTestCommand_dispatch :
    buildTestCommand "vitest" none = "npx vitest run" ∧
    buildTestCommand "jest" none = "npx jest" ∧
    buildTestCommand "mocha" none = "npx mocha" ∧
    (∀ p, buildTestCommand "vitest" (some p) = "npx vitest run " ++ p ∧
          buildTestCommand "jest" (some p) = "npx jest " ++ p ∧
          buildTestCommand "mocha" (some p) = "npx mocha " ++ p) ∧
    buildTestCommand "vitest" none ≠ buildTestCommand "jest" none ∧
    buildTestCommand "vitest" none ≠ buildTestCommand "mocha" none ∧
    buildTestCommand "jest" none ≠ buildTestCommand "mocha" none ∧
    (∀ fw p, fw ≠ "vitest" → fw ≠ "jest" → fw ≠ "mocha" →
      buildTestCommand fw p = buildTestCommand "vitest" p) := by
  refine ⟨rfl, rfl, rfl, fun p => ⟨rfl, rfl, rfl⟩, by decide, by decide, by decide, ?_⟩
  intro fw p h1 h2 h3
  unfold buildTestCommand mapGet
  dsimp only
  rw [List.find?_cons_of_neg _ (by simpa using Ne.symm h1),
    List.find?_cons_of_neg _ (by simpa using Ne.symm h2),
    List.find?_cons_of_neg _ (by simpa using Ne.symm h3)]
  rfl

/-- Claim C9 witness: the unrecognized identifier tap falls back to the
    vitest invocation. -/
theorem buildTestCommand_dispatch_witness :
    buildTestCommand "tap" (some "x.test.ts") = buildTestCommand "vitest" (some "x.test.ts") :=
  buildTestCommand_dispatch.2.2.2.2.2.2.2 "tap" (some "x.test.ts")
    (by decide) (by decide) (by decide)

/-- Definitional step of the retry loop with no fuel. -/
theorem retryRun_zero (rc : RetryConfig) (o : Nat → Option ApiError) (a : Nat) :
    retryRun rc o a 0 = ⟨0, [], false⟩ := rfl

/-- Definitional step of the retry loop with fuel left. -/
theorem retryRun_succ (rc : RetryConfig) (o : Nat → Option ApiError) (a f : Nat) :
    retryRun rc o a (f + 1) =
      match o a with
      | none => ⟨a + 1, [], true⟩
      | some e =>
          if a = rc.maxRetries ∨ shouldRetry e = false then ⟨a + 1, [], false⟩
          else
            let d := calculateDelay rc a
            let t := retryRun rc o (a + 1) f
            ⟨t.attemptsMade, d :: t.delays, t.succeeded⟩ := rfl

/-- Shape of the retry loop run: with the loop invariant attempt + fuel =
    maxRetries + 1 and fuel left, between attempt + 1 and maxRetries + 1
    attempts are made, and the sleeps are exactly calculateDelay at the
    attempt indices before the last attempt. -/
theorem retryRun_spec (rc : RetryConfig) (o : Nat → Option ApiError) :
    ∀ (fuel attempt : Nat), attempt + fuel = rc.maxRetries + 1 → 1 ≤ fuel →
      attempt + 1 ≤ (retryRun rc o attempt fuel).attemptsMade ∧
      (retryRun rc o attempt fuel).attemptsMade ≤ rc.maxRetries + 1 ∧
      (retryRun rc o attempt fuel).delays =
        (List.range' attempt ((retryRun rc o attempt fuel).attemptsMade - 1 - attempt)).map
          (calculateDelay rc) := by
  intro fuel
  induction fuel with
  | zero => intro attempt _ h1; omega
  | succ f ih =>
      intro attempt hinv _
      rw [retryRun_succ]
      match ho : o attempt with
      | none =>
          dsimp only
          refine ⟨Nat.le_refl _, by omega, ?_⟩
          have h0 : attempt + 1 - 1 - attempt = 0 := by omega
          rw [h0]
          rfl
      | some e =>
          dsimp only
          by_cases hb : attempt = rc.maxRetries ∨ shouldRetry e = false
          · rw [if_pos hb]
            dsimp only
            refine ⟨Nat.le_refl _, by omega, ?_⟩
            have h0 : attempt + 1 - 1 - attempt = 0 := by omega
            rw [h0]
            rfl
          · rw [if_neg hb]
            have hne : attempt ≠ rc.maxRetries := fun hh => hb (Or.inl hh)
            have hf : 1 ≤ f := by omega
            obtain ⟨h1, h2, h3⟩ := ih (attempt + 1) (by omega) hf
            dsimp only
            refine ⟨by omega, h2, ?_⟩
            rw [h3]
            have hn : (retryRun rc o (attempt + 1) f).attemptsMade - 1 - attempt =
                ((retryRun rc o (attempt + 1) f).attemptsMade - 1 - (attempt + 1)) + 1 := by
              omega
            rw [hn, List.range'_succ]
            rfl

/-- A run of retryable failures followed by a non-retryable failure stops
    the loop right after the non-retryable attempt. -/
theorem retryRun_stops (rc : RetryConfig) (o : Nat → Option ApiError) :
    ∀ (k fuel attempt : Nat) (e : ApiError), attempt + fuel = rc.maxRetries + 1 →
      attempt + k ≤ rc.maxRetries →
      (∀ j, j < k → ∃ ej, o (attempt + j) = some ej ∧ shouldRetry ej = true) →
      o (attempt + k) = some e → shouldRetry e = false →
      (retryRun rc o attempt fuel).attemptsMade = attempt + k + 1 ∧
      (retryRun rc o attempt fuel).succeeded = false := by
  intro k
  induction k with
  | zero =>
      intro fuel attempt e hinv hle hpre ho hnr
      match fuel, hinv with
      | 0, hinv => exact absurd hinv (by omega)
      | f + 1, hinv =>
          rw [retryRun_succ]
          rw [Nat.add_zero] at ho
          rw [ho]
          dsimp only
          rw [if_pos (Or.inr hnr)]
          dsimp only
          exact ⟨by omega, rfl⟩
  | succ k ih =>
      intro fuel attempt e hinv hle hpre ho hnr
      match fuel, hinv with
      | 0, hinv => exact absurd hinv (by omega)
      | f + 1, hinv =>
          obtain ⟨e0, he0, hr0⟩ := hpre 0 (Nat.succ_pos k)
          rw [Nat.add_zero] at he0
          rw [retryRun_succ, he0]
          dsimp only
          have hb : ¬(attempt = rc.maxRetries ∨ shouldRetry e0 = false) := by
            rintro (hh | hh)
            · omega
            · rw [hr0] at hh
              cases hh
          rw [if_neg hb]
          dsimp only
          have hpre1 : ∀ j, j < k →
              ∃ ej, o (attempt + 1 + j) = some ej ∧ shouldRetry ej = true := by
            intro j hj
            have hjj : attempt + 1 + j = attempt + (j + 1) := by omega
            rw [hjj]
            exact hpre (j + 1) (by omega)
          have ho1 : o (attempt + 1 + k) = some e := by
            have hkk : attempt + 1 + k = attempt + (k + 1) := by omega
            rw [hkk]
            exact ho
          obtain ⟨ha, hs⟩ := ih f (attempt + 1) e (by omega) (by omega) hpre1 ho1 hnr
          refine ⟨?_, hs⟩
          rw [ha]
          omega

/-- Claim C8 counterexample: with the default configuration (maxRetries 3)
    and an always-retryable connection-refused failure, the loop makes 4
    attempts, not at most 3. -/
theorem retry_attempts_counterexample :
    (makeRequestRetry defaultRetryConfig
      (fun _ => some ⟨some "ECONNREFUSED", none⟩)).attemptsMade = 4 ∧
    ¬ (makeRequestRetry defaultRetryConfig
      (fun _ => some ⟨some "ECONNREFUSED", none⟩)).attemptsMade ≤ 3 := by
  exact ⟨rfl, by decide⟩

/-- Claim C8 (amended): at most maxRetries + 1 attempts are made (4 with
    the default config); the sleep after attempt i is exactly
    min(baseDelay * multiplier ^ i, maxDelay) with no jitter; after any run
    of retryable failures, a non-retryable failure (in particular any 4xx
    response) stops the loop at that attempt with no further retries. -/
theorem retry_policy_amended :
    (∀ rc o, (makeRequestRetry rc o).attemptsMade ≤ rc.maxRetries + 1) ∧
    (∀ rc o, (makeRequestRetry rc o).delays =
      (List.range ((makeRequestRetry rc o).attemptsMade - 1)).map
        (fun i => min (rc.baseDelay * rc.backoffMultiplier ^ i) rc.maxDelay)) ∧
    (∀ rc o (k : Nat) e, k ≤ rc.maxRetries →
      (∀ j, j < k → ∃ ej, o j = some ej ∧ shouldRetry ej = true) →
      o k = some e → shouldRetry e = false →
      (makeRequestRetry rc o).attemptsMade = k + 1 ∧
      (makeRequestRetry rc o).succeeded = false) ∧
    (∀ code st, 400 ≤ st → st < 500 → shouldRetry ⟨code, some st⟩ = false) := by
  refine ⟨?_, ?_, ?_, ?_⟩
  · intro rc o
    exact (retryRun_spec rc o (rc.maxRetries + 1) 0 (by omega) (by omega)).2.1
  · intro rc o
    have h := (retryRun_spec rc o (rc.maxRetries + 1) 0 (by omega) (by omega)).2.2
    unfold makeRequestRetry at h ⊢
    rw [h, List.range_eq_range']
    rfl
  · intro rc o k e hk hpre ho hnr
    have h := retryRun_stops rc o k (rc.maxRetries + 1) 0 e (by omega) (by omega)
      (by intro j hj; rw [Nat.zero_add]; exact hpre j hj) (by rw [Nat.zero_add]; exact ho) hnr
    exact ⟨by rw [show (makeRequestRetry rc o).attemptsMade =
        (retryRun rc o 0 (rc.maxRetries + 1)).attemptsMade from rfl, h.1, Nat.zero_add], h.2⟩
  · intro code st h1 h2
    unfold shouldRetry
    rw [if_pos (by simp [h1, h2])]

/-- Claim C8 witness: a 404 response on the first attempt stops the loop
    after exactly one attempt with no retry. -/
theorem retry_policy_amended_witness :
    (makeRequestRetry defaultRetryConfig (fun _ => some ⟨none, some 404⟩)).attemptsMade = 1 ∧
    (makeRequestRetry defaultRetryConfig (fun _ => some ⟨none, some 404⟩)).succeeded = false ∧
    shouldRetry ⟨none, some 404⟩ = false := by
  have hnr : shouldRetry ⟨none, some 404⟩ = false :=
    retry_policy_amended.2.2.2 none 404 (by omega) (by omega)
  have h := retry_policy_amended.2.2.1 defaultRetryConfig (fun _ => some ⟨none, some 404⟩)
    0 ⟨none, some 404⟩ (by decide) (fun j hj => absurd hj (Nat.not_lt_zero j)) rfl hnr
  exact ⟨h.1, h.2, hnr⟩

/-- The gate passes a CLOSED breaker through unchanged. -/
theorem executeGate_closed (cfg : CircuitBreakerConfig) (cb : CircuitBreaker) (now : Nat)
    (h : cb.state = .CLOSED) : cb.executeGate cfg now = some cb := by
  unfold CircuitBreaker.executeGate
  rw [h, if_neg (by decide)]

/-- The gate passes a HALF_OPEN breaker through unchanged. -/
theorem executeGate_halfopen (cfg : CircuitBreakerConfig) (cb : CircuitBreaker) (now : Nat)
    (h : cb.state = .HALF_OPEN) : cb.executeGate cfg now = some cb := by
  unfold CircuitBreaker.executeGate
  rw [h, if_neg (by decide)]

/-- The gate rejects an OPEN breaker before the reset timeout has passed. -/
theorem executeGate_open_cold (cfg : CircuitBreakerConfig) (cb : CircuitBreaker) (now : Nat)
    (h : cb.state = .OPEN) (ht : now - cb.lastFailureTime ≤ cfg.resetTimeoutMs) :
    cb.executeGate cfg now = none := by
  unfold CircuitBreaker.executeGate
  rw [h, if_pos rfl, if_neg (by omega)]

/-- The gate half-opens an OPEN breaker once strictly more than the reset
    timeout has passed since the last failure. -/
theorem executeGate_open_warm (cfg : CircuitBreakerConfig) (cb : CircuitBreaker) (now : Nat)
    (h : cb.state = .OPEN) (ht : cfg.resetTimeoutMs < now - cb.lastFailureTime) :
    cb.executeGate cfg now = some { cb with state := .HALF_OPEN } := by
  unfold CircuitBreaker.executeGate
  rw [h, if_pos rfl, if_pos (by omega)]

/-- A failing call against a CLOSED breaker counts the failure and opens
    the breaker exactly when the threshold is reached. -/
theorem execute_closed_fail (cfg : CircuitBreakerConfig) (cb : CircuitBreaker) (now : Nat)
    (h : cb.state = .CLOSED) :
    CircuitBreaker.execute cfg cb now false =
      (⟨cb.failures + 1, now,
        if cfg.failureThreshold ≤ cb.failures + 1 then .OPEN else .CLOSED⟩, .failedOp) := by
  unfold CircuitBreaker.execute
  rw [executeGate_closed cfg cb now h]
  dsimp only
  unfold CircuitBreaker.onFailure
  rw [h, if_neg (by decide)]

/-- Unfolding step of runCalls. -/
theorem runCalls_cons (cfg : CircuitBreakerConfig) (cb : CircuitBreaker)
    (t : Nat) (b : Bool) (rest : List (Nat × Bool)) :
    CircuitBreaker.runCalls cfg cb ((t, b) :: rest) =
      CircuitBreaker.runCalls cfg (CircuitBreaker.execute cfg cb t b).1 rest := rfl

/-- Consecutive failures from a CLOSED breaker accumulate one by one; the
    state stays CLOSED strictly below the threshold and turns OPEN exactly
    when the count reaches it. -/
theorem runFailures_spec (cfg : CircuitBreakerConfig) :
    ∀ (times : List Nat) (cb : CircuitBreaker),
      cb.state = .CLOSED →
      cb.failures + times.length ≤ cfg.failureThreshold →
      (CircuitBreaker.runCalls cfg cb (times.map (fun t => (t, false)))).failures =
        cb.failures + times.length ∧
      (cb.failures + times.length < cfg.failureThreshold →
        (CircuitBreaker.runCalls cfg cb (times.map (fun t => (t, false)))).state = .CLOSED) ∧
      (cb.failures + times.length = cfg.failureThreshold → 0 < times.length →
        (CircuitBreaker.runCalls cfg cb (times.map (fun t => (t, false)))).state = .OPEN) := by
  intro times
  induction times with
  | nil =>
      intro cb hst _
      refine ⟨by simp [CircuitBreaker.runCalls], ?_, ?_⟩
      · intro _
        simpa [CircuitBreaker.runCalls] using hst
      · intro _ h0
        simp at h0
  | cons t ts ih =>
      intro cb hst hle
      rw [List.map_cons, runCalls_cons, execute_closed_fail cfg cb t hst]
      simp only [List.length_cons] at hle ⊢
      by_cases hth : cfg.failureThreshold ≤ cb.failures + 1
      · have hts : ts = [] := by
          cases ts with
          | nil => rfl
          | cons x xs => simp at hle; omega
        subst hts
        rw [if_pos hth]
        simp only [List.map_nil, List.length_nil]
        refine ⟨rfl, ?_, ?_⟩
        · intro hlt
          omega
        · intro _ _
          rfl
      · rw [if_neg hth]
        obtain ⟨h1, h2, h3⟩ := ih ⟨cb.failures + 1, t, .CLOSED⟩ rfl (by simp; omega)
        simp only at h1 h2 h3
        refine ⟨by rw [h1]; omega, ?_, ?_⟩
        · intro hlt
          exact h2 (by omega)
        · intro heq _
          by_cases hts : 0 < ts.length
          · exact h3 (by omega) hts
          · omega

/-- One execute step preserves the invariant that a breaker away from
    CLOSED has accumulated at least threshold many failures. -/
theorem breaker_invariant_step (cfg : CircuitBreakerConfig) (cb : CircuitBreaker)
    (now : Nat) (b : Bool)
    (h : cb.state ≠ .CLOSED → cfg.failureThreshold ≤ cb.failures) :
    (CircuitBreaker.execute cfg cb now b).1.state ≠ .CLOSED →
      cfg.failureThreshold ≤ (CircuitBreaker.execute cfg cb now b).1.failures := by
  unfold CircuitBreaker.execute
  match hg : cb.executeGate cfg now with
  | none => exact h
  | some cb1 =>
      have hfail : cb1.failures = cb.failures := by
        unfold CircuitBreaker.executeGate at hg
        by_cases hs : cb.state = .OPEN
        · rw [if_pos hs] at hg
          by_cases ht : now - cb.lastFailureTime > cfg.resetTimeoutMs
          · rw [if_pos ht] at hg
            cases hg
            rfl
          · rw [if_neg ht] at hg
            cases hg
        · rw [if_neg hs] at hg
          cases hg
          rfl
      have hstate : cb1.state = cb.state ∨ (cb.state = .OPEN ∧ cb1.state = .HALF_OPEN) := by
        unfold CircuitBreaker.executeGate at hg
        by_cases hs : cb.state = .OPEN
        · rw [if_pos hs] at hg
          by_cases ht : now - cb.lastFailureTime > cfg.resetTimeoutMs
          · rw [if_pos ht] at hg
            cases hg
            exact Or.inr ⟨hs, rfl⟩
          · rw [if_neg ht] at hg
            cases hg
        · rw [if_neg hs] at hg
          cases hg
          exact Or.inl rfl
      cases b
      · unfold CircuitBreaker.onFailure
        dsimp only
        by_cases hth : cfg.failureThreshold ≤ cb1.failures + 1
        · intro _
          rw [if_pos hth]
          exact hth
        · rw [if_neg hth]
          intro hne
          rcases hstate with hs | ⟨hs, hs1⟩
          · have hcb := h (by rw [← hs]; exact hne)
            omega
          · rw [hfail] at hth
            have hcb := h (by rw [hs]; decide)
            omega
      · unfold CircuitBreaker.onSuccess
        intro hne
        exact absurd rfl hne

/-- The away-from-CLOSED invariant holds for every call sequence from the
    initial breaker. -/
theorem breaker_invariant_runCalls (cfg : CircuitBreakerConfig) :
    ∀ (calls : List (Nat × Bool)) (cb : CircuitBreaker),
      (cb.state ≠ .CLOSED → cfg.failureThreshold ≤ cb.failures) →
      ((CircuitBreaker.runCalls cfg cb calls).state ≠ .CLOSED →
        cfg.failureThreshold ≤ (CircuitBreaker.runCalls cfg cb calls).failures) := by
  intro calls
  induction calls with
  | nil => intro cb h; exact h
  | cons c rest ih =>
      intro cb h
      obtain ⟨t, b⟩ := c
      rw [runCalls_cons]
      exact ih (CircuitBreaker.execute cfg cb t b).1 (breaker_invariant_step cfg cb t b h)

/-- Claim C7: the breaker starts CLOSED and opens after exactly
    failureThreshold consecutive failures (fewer leave it CLOSED, and any
    success resets the count and state); while OPEN and within the reset
    timeout of the last failure every call is rejected without consulting
    the operation, and the composed request makes zero attempts (the retry
    loop never runs); once strictly more than resetTimeout has elapsed the
    gate lets the next call run in HALF_OPEN, where a success closes the
    breaker and a failure reopens it (the threshold bound needed for the
    reopening is the reachability invariant of the last conjunct). -/
theorem circuit_breaker_state_machine :
    CircuitBreaker.initial.state = CBState.CLOSED ∧
    (∀ cfg (times : List Nat) (cb : CircuitBreaker),
      cb.state = .CLOSED → cb.failures = 0 → times.length ≤ cfg.failureThreshold →
      (times.length < cfg.failureThreshold →
        (CircuitBreaker.runCalls cfg cb (times.map (fun t => (t, false)))).state = .CLOSED) ∧
      (times.length = cfg.failureThreshold → 0 < times.length →
        (CircuitBreaker.runCalls cfg cb (times.map (fun t => (t, false)))).state = .OPEN)) ∧
    (∀ cfg (cb : CircuitBreaker) now, cb.state = .CLOSED →
      CircuitBreaker.execute cfg cb now true =
        (⟨0, cb.lastFailureTime, .CLOSED⟩, .succeeded)) ∧
    (∀ cfg (cb : CircuitBreaker) now b, cb.state = .OPEN →
      now - cb.lastFailureTime ≤ cfg.resetTimeoutMs →
      CircuitBreaker.execute cfg cb now b = (cb, .rejected)) ∧
    (∀ cfg rc (cb : CircuitBreaker) now outcomes, cb.state = .OPEN →
      now - cb.lastFailureTime ≤ cfg.resetTimeoutMs →
      makeRequest cfg rc cb now outcomes = (cb, ⟨0, [], false⟩)) ∧
    (∀ cfg (cb : CircuitBreaker) now, cb.state = .OPEN →
      cfg.resetTimeoutMs < now - cb.lastFailureTime →
      cb.executeGate cfg now = some { cb with state := .HALF_OPEN } ∧
      CircuitBreaker.execute cfg cb now true =
        (⟨0, cb.lastFailureTime, .CLOSED⟩, .succeeded) ∧
      (cfg.failureThreshold ≤ cb.failures →
        (CircuitBreaker.execute cfg cb now false).1.state = .OPEN)) ∧
    (∀ cfg (calls : List (Nat × Bool)),
      (CircuitBreaker.runCalls cfg CircuitBreaker.initial calls).state ≠ .CLOSED →
      cfg.failureThreshold ≤ (CircuitBreaker.runCalls cfg CircuitBreaker.initial calls).failures) := by
  refine ⟨rfl, ?_, ?_, ?_, ?_, ?_, ?_⟩
  · intro cfg times cb hst hf hle
    obtain ⟨_, h2, h3⟩ := runFailures_spec cfg times cb hst (by omega)
    constructor
    · intro hlt
      exact h2 (by omega)
    · intro heq h0
      exact h3 (by omega) h0
  · intro cfg cb now hst
    unfold CircuitBreaker.execute
    rw [executeGate_closed cfg cb now hst]
    dsimp only
    rw [if_pos rfl]
    rfl
  · intro cfg cb now b hst ht
    unfold CircuitBreaker.execute
    rw [executeGate_open_cold cfg cb now hst ht]
  · intro cfg rc cb now outcomes hst ht
    unfold makeRequest
    rw [executeGate_open_cold cfg cb now hst ht]
  · intro cfg cb now hst ht
    refine ⟨executeGate_open_warm cfg cb now hst ht, ?_, ?_⟩
    · unfold CircuitBreaker.execute
      rw [executeGate_open_warm cfg cb now hst ht]
      dsimp only
      rw [if_pos rfl]
      rfl
    · intro hth
      unfold CircuitBreaker.execute
      rw [executeGate_open_warm cfg cb now hst ht]
      dsimp only
      rw [if_neg (by decide)]
      unfold CircuitBreaker.onFailure
      dsimp only
      rw [if_pos (by omega)]
  · intro cfg calls
    exact breaker_invariant_runCalls cfg calls CircuitBreaker.initial
      (fun hne => absurd rfl hne)

/-- Claim C7 witness: with the service configuration (threshold 5), five
    failures at times 1..5 open the breaker from the initial state; a call
    at time 20000 (within the 30000 ms reset timeout of the last failure
    at time 5) is rejected with the breaker unchanged, and zero attempts
    are made by a composed request; at time 40000 the gate half-opens, a
    success closes the breaker and a failure reopens it. -/
theorem circuit_breaker_state_machine_witness :
    (CircuitBreaker.runCalls serviceBreakerConfig CircuitBreaker.initial
      ([1, 2, 3, 4, 5].map (fun t => (t, false)))).state = CBState.OPEN ∧
    CircuitBreaker.execute serviceBreakerConfig ⟨5, 5, .OPEN⟩ 20000 true =
      (⟨5, 5, .OPEN⟩, .rejected) ∧
    makeRequest serviceBreakerConfig defaultRetryConfig ⟨5, 5, .OPEN⟩ 20000
      (fun _ => none) = (⟨5, 5, .OPEN⟩, ⟨0, [], false⟩) ∧
    CircuitBreaker.execute serviceBreakerConfig ⟨5, 5, .OPEN⟩ 40000 true =
      (⟨0, 5, .CLOSED⟩, .succeeded) ∧
    (CircuitBreaker.execute serviceBreakerConfig ⟨5, 5, .OPEN⟩ 40000 false).1.state =
      CBState.OPEN := by
  refine ⟨?_, ?_, ?_, ?_, ?_⟩
  · exact (circuit_breaker_state_machine.2.1 serviceBreakerConfig [1, 2, 3, 4, 5]
      CircuitBreaker.initial rfl rfl (by decide)).2 (by decide) (by decide)
  · exact circuit_breaker_state_machine.2.2.2.1 serviceBreakerConfig ⟨5, 5, .OPEN⟩
      20000 true rfl (by decide)
  · exact circuit_breaker_state_machine.2.2.2.2.1 serviceBreakerConfig defaultRetryConfig
      ⟨5, 5, .OPEN⟩ 20000 (fun _ => none) rfl (by decide)
  · exact (circuit_breaker_state_machine.2.2.2.2.2.1 serviceBreakerConfig ⟨5, 5, .OPEN⟩
      40000 rfl (by decide)).2.1
  · exact (circuit_breaker_state_machine.2.2.2.2.2.1 serviceBreakerConfig ⟨5, 5, .OPEN⟩
      40000 rfl (by decide)).2.2 (by decide)

end McpTdd
